import Mathlib

/-
Shallow embedding of the Backflip SDR pipeline persistence layer
(src/db/models.py, src/db/repositories/{organizations,contacts,events,
sequences,pipeline}.py and the persistence block of src/agent.py).

The PostgreSQL store is modelled as lists of rows; uuid4 primary keys are
modelled by a monotone counter; timezone-aware instants are modelled as
natural numbers; SQL DATE values as explicit year/month/day records.
Each repository function takes the store (the AsyncSession state) and the
current instant, and returns its result together with the updated store;
operations that PostgreSQL can reject (CHECK-constraint violations) return
Except.  The get_db context manager of src/db/connection.py (commit on
success, rollback on exception) is modelled by withTransaction.
-/

namespace Backflip

/-- Timestamps (timezone-aware instants in the source) as abstract ticks. -/
abbrev Instant := Nat

/-- A SQL DATE value: calendar year, month (1-12) and day (1-31). -/
structure Date where
  year : Nat
  month : Nat
  day : Nat
deriving DecidableEq, Repr

/-- Calendar order on dates (the order PostgreSQL uses for DATE columns). -/
def dateLe (a b : Date) : Prop :=
  a.year < b.year ∨
    (a.year = b.year ∧
      (a.month < b.month ∨ (a.month = b.month ∧ a.day ≤ b.day)))

instance (a b : Date) : Decidable (dateLe a b) := by
  unfold dateLe; infer_instance

/-- Gregorian leap-year rule, used by dateutil for day clamping. -/
def isLeapYear (y : Nat) : Bool :=
  (y % 4 == 0 && y % 100 != 0) || (y % 400 == 0)

/-- Number of days in a month, with the Gregorian leap rule. -/
def daysInMonth (y m : Nat) : Nat :=
  if m = 2 then (if isLeapYear y then 29 else 28)
  else if m = 4 ∨ m = 6 ∨ m = 9 ∨ m = 11 then 30
  else 31

/-- Semantics of dateutil relativedelta(months=n) addition: carry whole
years out of the month sum and clamp the day to the target month. -/
def addMonths (d : Date) (n : Nat) : Date :=
  let total := d.month - 1 + n
  let y := d.year + total / 12
  let m := total % 12 + 1
  { year := y, month := m, day := min d.day (daysInMonth y m) }

/-- Python str.lower restricted to ASCII, as applied to email addresses. -/
def pyLower (s : String) : String :=
  ⟨s.data.map Char.toLower⟩

/-- Python str.strip: drop leading and trailing whitespace. -/
def pyStrip (s : String) : String :=
  ⟨((s.data.dropWhile Char.isWhitespace).reverse.dropWhile
      Char.isWhitespace).reverse⟩

/-- The email normalisation email.lower().strip() used by the contact and
suppression repositories. -/
def normEmail (e : String) : String := pyStrip (pyLower e)

/-- Choose the supplied value when the upsert data carries the key,
otherwise keep the old column value (ON CONFLICT DO UPDATE per key). -/
def pick {α : Type} (new : Option α) (old : Option α) : Option α :=
  match new with
  | some v => some v
  | none => old

/-- Choose the supplied value when present, otherwise a non-null default
(server_default columns on insert, or the old value on update). -/
def pickD {α : Type} (new : Option α) (old : α) : α :=
  match new with
  | some v => v
  | none => old

/-- Row of crm.organizations restricted to the id plus the columns the
upsert of src/db/repositories/organizations.py can supply.  Timestamp,
outreach-date and disqualification columns are omitted: no claim below
reads them. -/
structure Organization where
  id : Nat
  name : Option String
  domain : String
  website : Option String
  description : Option String
  org_type : Option String
  employee_count_range : Option String
  icp_score : Option Int
  icp_score_dimensions : Option String
  pipeline_stage : String
  why_fit : Option String
  notes : Option String
deriving DecidableEq, Repr

/-- Partial field set passed to the organization upsert (the data dict).
A none field means the key is absent from the dict. -/
structure OrgData where
  name : Option String
  domain : String
  website : Option String
  description : Option String
  org_type : Option String
  employee_count_range : Option String
  icp_score : Option Int
  icp_score_dimensions : Option String
  pipeline_stage : Option String
  why_fit : Option String
  notes : Option String
deriving DecidableEq, Repr

/-- Row of crm.contacts restricted to the id plus the columns the contact
upsert can supply. -/
structure Contact where
  id : Nat
  org_id : Option Nat
  name : Option String
  first_name : Option String
  last_name : Option String
  title : Option String
  email : String
  email_verified : Bool
  hunter_score : Option Int
  phone : Option String
  linkedin_url : Option String
  is_primary : Bool
  notes : Option String
deriving DecidableEq, Repr

/-- Partial field set passed to the contact upsert. -/
structure ContactData where
  org_id : Option Nat
  name : Option String
  first_name : Option String
  last_name : Option String
  title : Option String
  email : String
  email_verified : Option Bool
  hunter_score : Option Int
  phone : Option String
  linkedin_url : Option String
  is_primary : Option Bool
  notes : Option String
deriving DecidableEq, Repr

/-- Row of crm.events restricted to the columns the window query reads.
Recurrence and discovery metadata are omitted: no claim reads them. -/
structure EventRow where
  id : Nat
  org_id : Nat
  event_name : String
  event_type : Option String
  event_date : Option Date
deriving DecidableEq, Repr

/-- Row of crm.suppression_list. -/
structure SuppressionRow where
  id : Nat
  email : String
  domain : Option String
  reason : Option String
  source : String
  suppressed_at : Instant
deriving DecidableEq, Repr

/-- Row of crm.email_touches restricted to the columns the sequence
repository writes and reads. -/
structure EmailTouch where
  id : Nat
  sequence_id : Nat
  org_id : Option Nat
  contact_id : Option Nat
  touch_number : Nat
  scheduled_date : Option Instant
  sent_at : Option Instant
  subject : Option String
  body : Option String
  status : Option String
  message_id : Option String
deriving DecidableEq, Repr

/-- Row of crm.inbound_replies. -/
structure InboundReply where
  id : Nat
  org_id : Option Nat
  contact_id : Option Nat
  touch_id : Option Nat
  reply_text : String
  classification : String
  classification_reasoning : Option String
  key_phrase : Option String
  classified_at : Instant
  recontact_date : Option Date
  recontact_note : Option String
deriving DecidableEq, Repr

/-- Row of crm.call_records as written by record_call.  The agreed_slot
JSON payload is opaque to every claim and is kept as an optional blob. -/
structure CallRecord where
  id : Nat
  org_id : Option Nat
  contact_id : Option Nat
  call_permission_granted : Bool
  call_permission_granted_at : Option Instant
  elevenlabs_call_id : Option String
  elevenlabs_agent_id : Option String
  call_status : Option String
  transcript : Option String
  call_successful : Option Bool
  agreed_slot : Option String
  notes : Option String
  created_at : Instant
deriving DecidableEq, Repr

/-- The persistent store: one list per crm table touched by the claims,
plus the id counter standing in for uuid4. -/
structure Store where
  orgs : List Organization
  contacts : List Contact
  events : List EventRow
  suppression_list : List SuppressionRow
  email_touches : List EmailTouch
  inbound_replies : List InboundReply
  call_records : List CallRecord
  nextId : Nat
deriving DecidableEq, Repr

/-- The empty database. -/
def emptyStore : Store :=
  { orgs := [], contacts := [], events := [], suppression_list := []
    email_touches := [], inbound_replies := [], call_records := []
    nextId := 0 }

/-- Errors PostgreSQL raises back through the session: violation of a
named CHECK constraint from src/db/models.py. -/
inductive DBError where
  | checkViolation (constraint : String)
deriving DecidableEq, Repr

instance {ε α : Type} [DecidableEq ε] [DecidableEq α] :
    DecidableEq (Except ε α)
  | Except.ok a, Except.ok b =>
      if h : a = b then isTrue (by rw [h])
      else isFalse (by intro hc; injection hc; contradiction)
  | Except.ok _, Except.error _ => isFalse (by intro hc; cases hc)
  | Except.error _, Except.ok _ => isFalse (by intro hc; cases hc)
  | Except.error e, Except.error f =>
      if h : e = f then isTrue (by rw [h])
      else isFalse (by intro hc; injection hc; contradiction)

/-- Commit-on-success, rollback-on-exception semantics of the get_db
context manager in src/db/connection.py. -/
def withTransaction (body : Store → Except DBError Store) (st : Store) :
    Store :=
  match body st with
  | Except.ok st2 => st2
  | Except.error _ => st

namespace organizations

/-- Build the inserted row from the data dict: supplied keys take their
values, pipeline_stage falls back to its server default, other absent
keys become NULL. -/
def orgFromData (id : Nat) (d : OrgData) : Organization :=
  { id := id, name := d.name, domain := d.domain, website := d.website
    description := d.description, org_type := d.org_type
    employee_count_range := d.employee_count_range
    icp_score := d.icp_score
    icp_score_dimensions := d.icp_score_dimensions
    pipeline_stage := pickD d.pipeline_stage "discovered"
    why_fit := d.why_fit, notes := d.notes }

/-- ON CONFLICT DO UPDATE set clause: overwrite exactly the supplied
non-identity keys, leave domain untouched. -/
def applyOrgData (o : Organization) (d : OrgData) : Organization :=
  { o with
    name := pick d.name o.name
    website := pick d.website o.website
    description := pick d.description o.description
    org_type := pick d.org_type o.org_type
    employee_count_range := pick d.employee_count_range o.employee_count_range
    icp_score := pick d.icp_score o.icp_score
    icp_score_dimensions := pick d.icp_score_dimensions o.icp_score_dimensions
    pipeline_stage := pickD d.pipeline_stage o.pipeline_stage
    why_fit := pick d.why_fit o.why_fit
    notes := pick d.notes o.notes }

/-- Organizations upsert: INSERT .. ON CONFLICT (domain) DO UPDATE,
returning the resulting row (src/db/repositories/organizations.py). -/
def upsert (st : Store) (d : OrgData) : Organization × Store :=
  match st.orgs.find? (fun o => o.domain == d.domain) with
  | some row =>
      let row2 := applyOrgData row d
      (row2,
        { st with
          orgs := st.orgs.map (fun o =>
            if o.domain == d.domain then applyOrgData o d else o) })
  | none =>
      let row := orgFromData st.nextId d
      (row, { st with orgs := st.orgs ++ [row], nextId := st.nextId + 1 })

/-- Fold of repeated upsert calls, used to state the N-call claims. -/
def upsertMany (st : Store) (ds : List OrgData) : Store :=
  ds.foldl (fun s d => (upsert s d).2) st

end organizations

namespace contacts

/-- Build the inserted contact row; boolean columns fall back to their
server defaults (false). -/
def contactFromData (id : Nat) (email : String) (d : ContactData) :
    Contact :=
  { id := id, org_id := d.org_id, name := d.name
    first_name := d.first_name, last_name := d.last_name
    title := d.title, email := email
    email_verified := pickD d.email_verified false
    hunter_score := d.hunter_score, phone := d.phone
    linkedin_url := d.linkedin_url
    is_primary := pickD d.is_primary false
    notes := d.notes }

/-- ON CONFLICT DO UPDATE set clause for contacts: overwrite exactly the
supplied non-identity keys, leave email untouched. -/
def applyContactData (c : Contact) (d : ContactData) : Contact :=
  { c with
    org_id := pick d.org_id c.org_id
    name := pick d.name c.name
    first_name := pick d.first_name c.first_name
    last_name := pick d.last_name c.last_name
    title := pick d.title c.title
    email_verified := pickD d.email_verified c.email_verified
    hunter_score := pick d.hunter_score c.hunter_score
    phone := pick d.phone c.phone
    linkedin_url := pick d.linkedin_url c.linkedin_url
    is_primary := pickD d.is_primary c.is_primary
    notes := pick d.notes c.notes }

/-- Contacts upsert: case-fold the email, then INSERT .. ON CONFLICT
(email) DO UPDATE (src/db/repositories/contacts.py). -/
def upsert (st : Store) (d : ContactData) : Contact × Store :=
  match st.contacts.find? (fun c => c.email == normEmail d.email) with
  | some row =>
      (applyContactData row d,
        { st with
          contacts := st.contacts.map (fun c =>
            if c.email == normEmail d.email then applyContactData c d
            else c) })
  | none =>
      (contactFromData st.nextId (normEmail d.email) d,
        { st with
          contacts :=
            st.contacts ++ [contactFromData st.nextId (normEmail d.email) d],
          nextId := st.nextId + 1 })

/-- Fold of repeated contact upsert calls. -/
def upsertMany (st : Store) (ds : List ContactData) : Store :=
  ds.foldl (fun s d => (upsert s d).2) st

/-- Lookup by normalised email (src/db/repositories/contacts.py). -/
def get_by_email (st : Store) (email : String) : Option Contact :=
  st.contacts.find? (fun c => c.email == normEmail email)

/-- Membership test against the suppression list after normalising the
email (src/db/repositories/contacts.py). -/
def is_suppressed (st : Store) (email : String) : Bool :=
  st.suppression_list.any (fun r => r.email == normEmail email)

end contacts

namespace events

/-- Order on nullable dates as PostgreSQL sorts them ascending (NULLs
last); the window query filters NULLs out before sorting. -/
def odateLeB : Option Date → Option Date → Bool
  | _, none => true
  | none, some _ => false
  | some x, some y => decide (dateLe x y)

/-- Comparator realising ORDER BY event_date ascending. -/
def eventLeB (a b : EventRow) : Bool :=
  odateLeB a.event_date b.event_date

/-- Insert one event into a list sorted ascending by event_date. -/
def insertEvent (e : EventRow) : List EventRow → List EventRow
  | [] => [e]
  | f :: fs => if eventLeB e f then e :: f :: fs else f :: insertEvent e fs

/-- ORDER BY event_date ascending, as an insertion sort. -/
def sortEvents : List EventRow → List EventRow
  | [] => []
  | e :: es => insertEvent e (sortEvents es)

/-- Window query of src/db/repositories/events.py: events whose date lies
between today plus months_min and today plus months_max months, both
bounds inclusive, NULL dates excluded, ordered by event_date ascending. -/
def get_upcoming_events (st : Store) (today : Date)
    (months_min months_max : Nat) : List EventRow :=
  let window_open := addMonths today months_min
  let window_close := addMonths today months_max
  sortEvents
    (st.events.filter (fun e =>
      match e.event_date with
      | some d => decide (dateLe window_open d) && decide (dateLe d window_close)
      | none => false))

end events

namespace sequences

/-- UPDATE .. WHERE id = touch_id applied by mark_touch_sent: stamp
status, message id and sent time on the matching touch, with no filter on
the prior status (src/db/repositories/sequences.py).  The sent_at
argument defaults to the current instant when the caller passes none. -/
def markSentRow (t : EmailTouch) (message_id : String) (sa : Instant) :
    EmailTouch :=
  { t with
    status := some "sent",
    message_id := some message_id,
    sent_at := some sa }

/-- Mark a touch as sent; returns the updated row when the id exists
(RETURNING then scalar_one_or_none). -/
def mark_touch_sent (st : Store) (touch_id : Nat) (message_id : String)
    (sent_at : Option Instant) (now : Instant) :
    Option EmailTouch × Store :=
  let sa := pickD sent_at now
  let touches := st.email_touches.map (fun t =>
    if t.id == touch_id then markSentRow t message_id sa else t)
  (touches.find? (fun t => t.id == touch_id),
   { st with email_touches := touches })

/-- Predicate selecting the touches the cancellation UPDATE targets:
same sequence and still scheduled. -/
def cancelTarget (sequence_id : Nat) (t : EmailTouch) : Bool :=
  t.sequence_id == sequence_id && t.status == some "scheduled"

/-- Cancel all still-scheduled touches of one sequence and return how
many were cancelled (src/db/repositories/sequences.py). -/
def cancel_remaining_touches (st : Store) (sequence_id : Nat) :
    Nat × Store :=
  let n := st.email_touches.countP (cancelTarget sequence_id)
  (n,
   { st with email_touches := st.email_touches.map (fun t =>
       if cancelTarget sequence_id t then { t with status := some "cancelled" }
       else t) })

end sequences

namespace pipeline

/-- Legal values of the ck_reply_classification CHECK constraint. -/
def replyClassifications : List String :=
  ["INTERESTED", "NURTURE", "NOT_FIT", "UNSUBSCRIBE"]

/-- Persist an inbound reply with its classification
(src/db/repositories/pipeline.py); PostgreSQL rejects a classification
outside the ck_reply_classification CHECK constraint. -/
def record_reply (st : Store) (now : Instant) (org_id contact_id touch_id :
    Option Nat) (reply_text : String) (classification : String)
    (classification_reasoning key_phrase : Option String)
    (recontact_date : Option Date) (recontact_note : Option String) :
    Except DBError (InboundReply × Store) :=
  if replyClassifications.contains classification then
    let row : InboundReply :=
      { id := st.nextId, org_id := org_id, contact_id := contact_id
        touch_id := touch_id, reply_text := reply_text
        classification := classification
        classification_reasoning := classification_reasoning
        key_phrase := key_phrase, classified_at := now
        recontact_date := recontact_date, recontact_note := recontact_note }
    Except.ok (row,
      { st with
        inbound_replies := st.inbound_replies ++ [row],
        nextId := st.nextId + 1 })
  else Except.error (DBError.checkViolation "ck_reply_classification")

/-- Persist a call record (src/db/repositories/pipeline.py): an
unconditional append that stamps call_permission_granted_at with the
current instant exactly when call_permission_granted is true. -/
def record_call (st : Store) (now : Instant) (org_id contact_id : Option Nat)
    (call_permission_granted : Bool)
    (elevenlabs_call_id elevenlabs_agent_id call_status transcript :
      Option String)
    (call_successful : Option Bool) (agreed_slot notes : Option String) :
    CallRecord × Store :=
  let call : CallRecord :=
    { id := st.nextId, org_id := org_id, contact_id := contact_id
      call_permission_granted := call_permission_granted
      call_permission_granted_at :=
        if call_permission_granted then some now else none
      elevenlabs_call_id := elevenlabs_call_id
      elevenlabs_agent_id := elevenlabs_agent_id
      call_status := call_status, transcript := transcript
      call_successful := call_successful, agreed_slot := agreed_slot
      notes := notes, created_at := now }
  (call,
   { st with
     call_records := st.call_records ++ [call],
     nextId := st.nextId + 1 })

/-- Legal values of the ck_suppression_source CHECK constraint. -/
def suppressionSources : List String :=
  ["unsubscribe_reply", "manual", "bounce"]

/-- Row built by the suppression insert. -/
def suppressionRowFrom (id : Nat) (e : String) (domain reason :
    Option String) (source : String) (now : Instant) : SuppressionRow :=
  { id := id, email := e, domain := domain, reason := reason,
    source := source, suppressed_at := now }

/-- Add an email to the suppression list
(src/db/repositories/pipeline.py): normalise the email, insert with
ON CONFLICT (email) DO NOTHING, and read the existing row back when the
insert had no effect.  PostgreSQL checks ck_suppression_source on the
candidate row before conflict resolution. -/
def add_suppression (st : Store) (now : Instant) (email : String)
    (domain reason : Option String) (source : String) :
    Except DBError (SuppressionRow × Store) :=
  if suppressionSources.contains source then
    match st.suppression_list.find? (fun r => r.email == normEmail email) with
    | some row => Except.ok (row, st)
    | none =>
        Except.ok
          (suppressionRowFrom st.nextId (normEmail email) domain reason
            source now,
          { st with
            suppression_list := st.suppression_list ++
              [suppressionRowFrom st.nextId (normEmail email) domain reason
                source now],
            nextId := st.nextId + 1 })
  else Except.error (DBError.checkViolation "ck_suppression_source")

end pipeline

/-- True when some persisted call record shows a permission grant whose
timestamp predates the given instant (the precondition of the compliance
gate of spec section 4.2). -/
def hasGrantBefore (st : Store) (t : Instant) : Bool :=
  st.call_records.any (fun r =>
    r.call_permission_granted &&
      (match r.call_permission_granted_at with
       | some g => decide (g < t)
       | none => false))

namespace agent

/-- Persistence block of run_reply_handler (src/agent.py, Stage 3):
resolve org and contact ids from contact_email when non-empty, then in
one transaction record the reply and, for an UNSUBSCRIBE classification
with a non-empty sender email from the classifier, add a suppression
entry with source unsubscribe_reply.  No touch cancellation occurs. -/
def replyPersistBody (st : Store) (now : Instant) (reply_text : String)
    (classification : String)
    (classification_reasoning key_phrase : Option String)
    (recontact_date : Option Date) (recontact_note : Option String)
    (classification_email contact_email : String) :
    Except DBError Store := do
  let resolved :=
    if contact_email == "" then none
    else contacts.get_by_email st contact_email
  let orgId := resolved.bind (fun c => c.org_id)
  let contactId := resolved.map (fun c => c.id)
  let r1 ← pipeline.record_reply st now orgId contactId none reply_text
    classification classification_reasoning key_phrase recontact_date
    recontact_note
  if classification == "UNSUBSCRIBE" && classification_email != "" then
    let r2 ← pipeline.add_suppression r1.2 now classification_email none
      (some "unsubscribed via reply") "unsubscribe_reply"
    pure r2.2
  else
    pure r1.2

/-- Stage 3 persistence wrapped in the get_db transaction: commit the
whole block or roll everything back. -/
def run_reply_handler_persist (st : Store) (now : Instant)
    (reply_text classification : String)
    (classification_reasoning key_phrase : Option String)
    (recontact_date : Option Date) (recontact_note : Option String)
    (classification_email contact_email : String) : Store :=
  withTransaction
    (fun s => replyPersistBody s now reply_text classification
      classification_reasoning key_phrase recontact_date recontact_note
      classification_email contact_email)
    st

end agent

/-- Uniqueness invariant maintained by the unique index on
organizations.domain: no two rows share a domain. -/
def orgNodup (st : Store) : Prop :=
  (st.orgs.map (fun o => o.domain)).Nodup

/-- Uniqueness invariant maintained by the unique index on
contacts.email: no two rows share a (case-folded) email. -/
def contactNodup (st : Store) : Prop :=
  (st.contacts.map (fun c => c.email)).Nodup

/-- Last-writer-wins check for a nullable column: when the data dict
supplied the key, the row now holds exactly that value. -/
def appliedOpt {α : Type} (new cur : Option α) : Prop :=
  match new with
  | some v => cur = some v
  | none => True

/-- Last-writer-wins check for a non-null column. -/
def appliedD {α : Type} (new : Option α) (cur : α) : Prop :=
  match new with
  | some v => cur = v
  | none => True

instance {α : Type} [DecidableEq α] :
    (new cur : Option α) → Decidable (appliedOpt new cur)
  | none, _ => isTrue trivial
  | some v, cur => inferInstanceAs (Decidable (cur = some v))

instance {α : Type} [DecidableEq α] :
    (new : Option α) → (cur : α) → Decidable (appliedD new cur)
  | none, _ => isTrue trivial
  | some v, cur => inferInstanceAs (Decidable (cur = v))

/-- Every non-identity key supplied by an organization upsert call holds
that call's value on the row. -/
def OrgData.applied (d : OrgData) (o : Organization) : Prop :=
  appliedOpt d.name o.name ∧ appliedOpt d.website o.website ∧
  appliedOpt d.description o.description ∧
  appliedOpt d.org_type o.org_type ∧
  appliedOpt d.employee_count_range o.employee_count_range ∧
  appliedOpt d.icp_score o.icp_score ∧
  appliedOpt d.icp_score_dimensions o.icp_score_dimensions ∧
  appliedD d.pipeline_stage o.pipeline_stage ∧
  appliedOpt d.why_fit o.why_fit ∧ appliedOpt d.notes o.notes

/-- Every non-identity key supplied by a contact upsert call holds that
call's value on the row. -/
def ContactData.applied (d : ContactData) (c : Contact) : Prop :=
  appliedOpt d.org_id c.org_id ∧ appliedOpt d.name c.name ∧
  appliedOpt d.first_name c.first_name ∧
  appliedOpt d.last_name c.last_name ∧
  appliedOpt d.title c.title ∧
  appliedD d.email_verified c.email_verified ∧
  appliedOpt d.hunter_score c.hunter_score ∧
  appliedOpt d.phone c.phone ∧
  appliedOpt d.linkedin_url c.linkedin_url ∧
  appliedD d.is_primary c.is_primary ∧
  appliedOpt d.notes c.notes

/-- Organization upsert data with every key absent except name and
domain, as the discovery pipeline supplies it. -/
def orgData0 (nm : Option String) (dom : String) (stage : Option String) :
    OrgData :=
  { name := nm, domain := dom, website := none, description := none,
    org_type := none, employee_count_range := none, icp_score := none,
    icp_score_dimensions := none, pipeline_stage := stage,
    why_fit := none, notes := none }

/-- Contact upsert data with every key absent except the email and an
optional name. -/
def contactData0 (nm : Option String) (em : String) : ContactData :=
  { org_id := none, name := nm, first_name := none, last_name := none,
    title := none, email := em, email_verified := none,
    hunter_score := none, phone := none, linkedin_url := none,
    is_primary := none, notes := none }

/-- First and second organization upsert calls of the dedup scenario. -/
def oData1 : OrgData := orgData0 (some "Acme") "acme.com" none

/-- Second call: same domain, different field values. -/
def oData2 : OrgData := orgData0 (some "Acme Media") "acme.com" (some "enriched")

/-- First and second contact upsert calls of the dedup scenario. -/
def cData1 : ContactData := contactData0 (some "Lee") "Lead@Acme.com"

/-- Second call: same email, different field values. -/
def cData2 : ContactData := contactData0 (some "Lee Ray") "Lead@Acme.com"

/-- Concrete contact used by the reply-handler and window scenarios. -/
def demoContact : Contact :=
  { id := 1, org_id := some 2, name := some "Lee", first_name := none,
    last_name := none, title := none, email := "lead@acme.com",
    email_verified := true, hunter_score := none, phone := none,
    linkedin_url := none, is_primary := true, notes := none }

/-- Touch builder for concrete scenarios. -/
def mkTouch (i seq : Nat) (n : Nat) (stat : Option String)
    (mid : Option String) : EmailTouch :=
  { id := i, sequence_id := seq, org_id := some 2, contact_id := some 1,
    touch_number := n, scheduled_date := some 50, sent_at := none,
    subject := some "S", body := some "B", status := stat,
    message_id := mid }

/-- Store holding one contact with one still-scheduled touch, the state
in which an UNSUBSCRIBE reply arrives. -/
def demoReplyStore : Store :=
  { emptyStore with contacts := [demoContact],
                    email_touches := [mkTouch 3 4 2 (some "scheduled") none],
                    nextId := 10 }

/-- Result of the Stage 3 persistence block run on demoReplyStore for an
UNSUBSCRIBE reply whose sender is the known contact. -/
def demoReplyResult : Store :=
  agent.run_reply_handler_persist demoReplyStore 100 "please remove me"
    "UNSUBSCRIBE" none none none none "lead@acme.com" "lead@acme.com"

/-- Sequence 4 with one sent touch and two scheduled touches, the
scenario of the touch-cancellation claim. -/
def cancelDemoStore : Store :=
  { emptyStore with
    email_touches :=
      [mkTouch 3 4 1 (some "sent") (some "msg-001"),
       mkTouch 5 4 2 (some "scheduled") none,
       mkTouch 6 4 3 (some "scheduled") none],
    nextId := 10 }

/-- Store holding a single already-cancelled touch. -/
def cancelledTouchStore : Store :=
  { emptyStore with
    email_touches := [mkTouch 3 4 2 (some "cancelled") none],
    nextId := 10 }

/-- Store holding a single scheduled touch. -/
def scheduledTouchStore : Store :=
  { emptyStore with
    email_touches := [mkTouch 3 4 1 (some "scheduled") none],
    nextId := 10 }

/-- Event builder for concrete window scenarios. -/
def mkEvent (i : Nat) (d : Option Date) : EventRow :=
  { id := i, org_id := 2, event_name := "Conf", event_type := none,
    event_date := d }

/-- Events around the 2026-01-01 outreach window: 12 months out, 2 months
out, 6 months out, exactly 4 months out, and one with no date. -/
def windowDemoStore : Store :=
  { emptyStore with
    events :=
      [mkEvent 1 (some ⟨2027, 1, 1⟩), mkEvent 2 (some ⟨2026, 3, 1⟩),
       mkEvent 3 (some ⟨2026, 7, 1⟩), mkEvent 4 (some ⟨2026, 5, 1⟩),
       mkEvent 5 none] }

/-- Result of recording a non-SKIPPED call outcome on an empty store,
where no permission grant was ever persisted. -/
def gateDemo : CallRecord × Store :=
  pipeline.record_call emptyStore 10 (some 2) (some 1) false none none
    (some "completed") none none none none

/-- Result of recording a call with permission granted at instant 5. -/
def grantDemo : CallRecord × Store :=
  pipeline.record_call emptyStore 5 none none true none none
    (some "completed") none none none none

/-- Generic helper: a list whose key projection is duplicate-free holds
at most one element with any given key. -/
theorem countP_key_le_one {α κ : Type} [BEq κ] [LawfulBEq κ] (key : α → κ)
    {l : List α} (h : (l.map key).Nodup) (k : κ) :
    l.countP (fun a => key a == k) ≤ 1 := by
  induction l with
  | nil => simp
  | cons a l ih =>
    rw [List.map_cons, List.nodup_cons] at h
    rw [List.countP_cons]
    by_cases hk : (key a == k) = true
    · have h0 : l.countP (fun a => key a == k) = 0 := by
        rw [List.countP_eq_zero]
        intro x hx hpx
        refine h.1 (List.mem_map.mpr ⟨x, hx, ?_⟩)
        have h1 : key x = k := by simpa using hpx
        have h2 : key a = k := by simpa using hk
        rw [h1, h2]
      simp [hk, h0]
    · have hk2 : (key a == k) = false := by simpa using hk
      simpa [hk2] using ih h.2

/-- Generic helper: a failed search on the left part of an append
continues into the right part. -/
theorem find?_append_none {α : Type} (p : α → Bool) {l1 : List α}
    (l2 : List α) (h : l1.find? p = none) :
    (l1 ++ l2).find? p = l2.find? p := by
  induction l1 with
  | nil => simp
  | cons a l ih =>
    by_cases hpa : p a = true
    · rw [List.find?_cons_of_pos _ hpa] at h
      cases h
    · have hpa2 : p a = false := by simpa using hpa
      rw [List.find?_cons_of_neg _ (by simp [hpa2])] at h
      rw [List.cons_append, List.find?_cons_of_neg _ (by simp [hpa2])]
      exact ih h

/-- A supplied key is applied by the conflict-update value choice. -/
theorem appliedOpt_pick {α : Type} (new old : Option α) :
    appliedOpt new (pick new old) := by
  cases new <;> simp [appliedOpt, pick]

/-- A supplied key is applied by the defaulting value choice. -/
theorem appliedD_pickD {α : Type} (new : Option α) (old : α) :
    appliedD new (pickD new old) := by
  cases new <;> simp [appliedD, pickD]

/-- A column that received the supplied optional value verbatim is
applied. -/
theorem appliedOpt_self {α : Type} (new : Option α) :
    appliedOpt new new := by
  cases new <;> simp [appliedOpt]

/-- The conflict update never touches the organization identity. -/
theorem applyOrgData_domain (o : Organization) (d : OrgData) :
    (organizations.applyOrgData o d).domain = o.domain := rfl

/-- The conflict update writes every supplied organization key. -/
theorem applyOrgData_applied (o : Organization) (d : OrgData) :
    d.applied (organizations.applyOrgData o d) :=
  ⟨appliedOpt_pick _ _, appliedOpt_pick _ _, appliedOpt_pick _ _,
   appliedOpt_pick _ _, appliedOpt_pick _ _, appliedOpt_pick _ _,
   appliedOpt_pick _ _, appliedD_pickD _ _, appliedOpt_pick _ _,
   appliedOpt_pick _ _⟩

/-- A fresh organization insert writes every supplied key. -/
theorem orgFromData_applied (id : Nat) (d : OrgData) :
    d.applied (organizations.orgFromData id d) :=
  ⟨appliedOpt_self _, appliedOpt_self _, appliedOpt_self _,
   appliedOpt_self _, appliedOpt_self _, appliedOpt_self _,
   appliedOpt_self _, appliedD_pickD _ _, appliedOpt_self _,
   appliedOpt_self _⟩

/-- Unfolding of the organization upsert when no row with the domain
exists: a plain insert. -/
theorem org_upsert_eq_insert (st : Store) (d : OrgData)
    (h : st.orgs.find? (fun o => o.domain == d.domain) = none) :
    organizations.upsert st d =
      (organizations.orgFromData st.nextId d,
       { st with
         orgs := st.orgs ++ [organizations.orgFromData st.nextId d],
         nextId := st.nextId + 1 }) := by
  unfold organizations.upsert
  rw [h]

/-- Unfolding of the organization upsert when a row with the domain
exists: an in-place update. -/
theorem org_upsert_eq_update (st : Store) (d : OrgData)
    (row : Organization)
    (h : st.orgs.find? (fun o => o.domain == d.domain) = some row) :
    organizations.upsert st d =
      (organizations.applyOrgData row d,
       { st with
         orgs := st.orgs.map (fun o =>
           if o.domain == d.domain then organizations.applyOrgData o d
           else o) }) := by
  unfold organizations.upsert
  rw [h]

/-- One organization upsert, on a store satisfying the unique-domain
invariant: the invariant is preserved, exactly one row with the supplied
domain remains, that row carries every supplied key, and the returned
row has the supplied domain. -/
theorem org_upsert_step (st : Store) (d : OrgData) (h : orgNodup st) :
    orgNodup (organizations.upsert st d).2 ∧
    (organizations.upsert st d).2.orgs.countP
      (fun o => o.domain == d.domain) = 1 ∧
    (∀ o ∈ (organizations.upsert st d).2.orgs,
      o.domain = d.domain → d.applied o) ∧
    (organizations.upsert st d).1.domain = d.domain := by
  cases hf : st.orgs.find? (fun o => o.domain == d.domain) with
  | none =>
    rw [org_upsert_eq_insert st d hf]
    have hnone : ∀ o ∈ st.orgs, o.domain ≠ d.domain := by
      intro o ho hdom
      have := List.find?_eq_none.mp hf o ho
      simp [hdom] at this
    refine ⟨?_, ?_, ?_, rfl⟩
    · unfold orgNodup at h ⊢
      rw [List.map_append, List.nodup_append]
      refine ⟨h, List.nodup_singleton _, ?_⟩
      intro x hx hx2
      obtain ⟨o, ho, rfl⟩ := List.mem_map.mp hx
      have : o.domain = d.domain := by simpa [organizations.orgFromData] using hx2
      exact hnone o ho this
    · rw [List.countP_append]
      have h0 : st.orgs.countP (fun o => o.domain == d.domain) = 0 := by
        rw [List.countP_eq_zero]
        intro o ho
        simpa using hnone o ho
      simp [h0, organizations.orgFromData]
    · intro o ho hdom
      rcases List.mem_append.mp ho with hl | hr
      · exact absurd hdom (hnone o hl)
      · have : o = organizations.orgFromData st.nextId d := by simpa using hr
        rw [this]
        exact orgFromData_applied _ _
  | some row =>
    rw [org_upsert_eq_update st d row hf]
    have hrow_mem := List.mem_of_find?_eq_some hf
    have hrow_dom : row.domain = d.domain := by
      simpa using List.find?_some hf
    have hpres : ∀ o : Organization,
        (if o.domain == d.domain then organizations.applyOrgData o d
         else o).domain = o.domain := by
      intro o
      by_cases hc : (o.domain == d.domain) = true <;>
        simp [hc, applyOrgData_domain]
    have hmapdom : (st.orgs.map (fun o =>
        if o.domain == d.domain then organizations.applyOrgData o d
        else o)).map (fun o => o.domain) =
        st.orgs.map (fun o => o.domain) := by
      rw [List.map_map]
      exact List.map_congr_left (fun a _ => hpres a)
    refine ⟨?_, ?_, ?_, ?_⟩
    · unfold orgNodup at h ⊢
      rw [hmapdom]
      exact h
    · have hcnt : (st.orgs.map (fun o =>
          if o.domain == d.domain then organizations.applyOrgData o d
          else o)).countP (fun o => o.domain == d.domain) =
          st.orgs.countP (fun o => o.domain == d.domain) := by
        rw [List.countP_map]
        refine List.countP_congr ?_
        intro a _
        simp only [Function.comp]
        rw [hpres a]
      rw [hcnt]
      have hle := countP_key_le_one (fun o : Organization => o.domain) h d.domain
      have hge : 0 < st.orgs.countP (fun o => o.domain == d.domain) :=
        List.countP_pos_iff.mpr ⟨row, hrow_mem, by simp [hrow_dom]⟩
      omega
    · intro o ho hdom
      obtain ⟨a, ha, rfl⟩ := List.mem_map.mp ho
      by_cases hc : (a.domain == d.domain) = true
      · rw [if_pos hc]
        exact applyOrgData_applied _ _
      · rw [if_neg (by simp [hc])] at hdom ⊢
        simp [hdom] at hc
    · rw [applyOrgData_domain, hrow_dom]

/-- The unique-domain invariant survives any sequence of organization
upserts. -/
theorem org_upsertMany_nodup (ds : List OrgData) :
    ∀ st : Store, orgNodup st →
      orgNodup (organizations.upsertMany st ds) := by
  induction ds with
  | nil =>
    intro st h
    simpa [organizations.upsertMany] using h
  | cons d ds ih =>
    intro st h
    have h1 := (org_upsert_step st d h).1
    simpa [organizations.upsertMany] using ih _ h1

/-- The conflict update never touches the contact identity. -/
theorem applyContactData_email (c : Contact) (d : ContactData) :
    (contacts.applyContactData c d).email = c.email := rfl

/-- The conflict update writes every supplied contact key. -/
theorem applyContactData_applied (c : Contact) (d : ContactData) :
    d.applied (contacts.applyContactData c d) :=
  ⟨appliedOpt_pick _ _, appliedOpt_pick _ _, appliedOpt_pick _ _,
   appliedOpt_pick _ _, appliedOpt_pick _ _, appliedD_pickD _ _,
   appliedOpt_pick _ _, appliedOpt_pick _ _, appliedOpt_pick _ _,
   appliedD_pickD _ _, appliedOpt_pick _ _⟩

/-- A fresh contact insert writes every supplied key. -/
theorem contactFromData_applied (id : Nat) (e : String) (d : ContactData) :
    d.applied (contacts.contactFromData id e d) :=
  ⟨appliedOpt_self _, appliedOpt_self _, appliedOpt_self _,
   appliedOpt_self _, appliedOpt_self _, appliedD_pickD _ _,
   appliedOpt_self _, appliedOpt_self _, appliedOpt_self _,
   appliedD_pickD _ _, appliedOpt_self _⟩

/-- Unfolding of the contact upsert when no row with the case-folded
email exists: a plain insert. -/
theorem contact_upsert_eq_insert (st : Store) (d : ContactData)
    (h : st.contacts.find? (fun c => c.email == normEmail d.email) = none) :
    contacts.upsert st d =
      (contacts.contactFromData st.nextId (normEmail d.email) d,
       { st with
         contacts :=
           st.contacts ++
             [contacts.contactFromData st.nextId (normEmail d.email) d],
         nextId := st.nextId + 1 }) := by
  unfold contacts.upsert
  rw [h]

/-- Unfolding of the contact upsert when a row with the case-folded
email exists: an in-place update. -/
theorem contact_upsert_eq_update (st : Store) (d : ContactData)
    (row : Contact)
    (h : st.contacts.find? (fun c => c.email == normEmail d.email) =
      some row) :
    contacts.upsert st d =
      (contacts.applyContactData row d,
       { st with
         contacts := st.contacts.map (fun c =>
           if c.email == normEmail d.email then contacts.applyContactData c d
           else c) }) := by
  unfold contacts.upsert
  rw [h]

/-- One contact upsert, on a store satisfying the unique-email
invariant: the invariant is preserved, exactly one row with the
case-folded email remains, that row carries every supplied key, and the
returned row has the case-folded email. -/
theorem contact_upsert_step (st : Store) (d : ContactData)
    (h : contactNodup st) :
    contactNodup (contacts.upsert st d).2 ∧
    (contacts.upsert st d).2.contacts.countP
      (fun c => c.email == normEmail d.email) = 1 ∧
    (∀ c ∈ (contacts.upsert st d).2.contacts,
      c.email = normEmail d.email → d.applied c) ∧
    (contacts.upsert st d).1.email = normEmail d.email := by
  cases hf : st.contacts.find? (fun c => c.email == normEmail d.email) with
  | none =>
    rw [contact_upsert_eq_insert st d hf]
    have hnone : ∀ c ∈ st.contacts, c.email ≠ normEmail d.email := by
      intro c hc hdom
      have := List.find?_eq_none.mp hf c hc
      simp [hdom] at this
    refine ⟨?_, ?_, ?_, rfl⟩
    · unfold contactNodup at h ⊢
      rw [List.map_append, List.nodup_append]
      refine ⟨h, List.nodup_singleton _, ?_⟩
      intro x hx hx2
      obtain ⟨c, hc, rfl⟩ := List.mem_map.mp hx
      have : c.email = normEmail d.email := by
        simpa [contacts.contactFromData] using hx2
      exact hnone c hc this
    · rw [List.countP_append]
      have h0 : st.contacts.countP
          (fun c => c.email == normEmail d.email) = 0 := by
        rw [List.countP_eq_zero]
        intro c hc
        simpa using hnone c hc
      simp [h0, contacts.contactFromData]
    · intro c hc hdom
      rcases List.mem_append.mp hc with hl | hr
      · exact absurd hdom (hnone c hl)
      · have : c = contacts.contactFromData st.nextId (normEmail d.email) d := by
          simpa using hr
        rw [this]
        exact contactFromData_applied _ _ _
  | some row =>
    rw [contact_upsert_eq_update st d row hf]
    have hrow_mem := List.mem_of_find?_eq_some hf
    have hrow_em : row.email = normEmail d.email := by
      simpa using List.find?_some hf
    have hpres : ∀ c : Contact,
        (if c.email == normEmail d.email then contacts.applyContactData c d
         else c).email = c.email := by
      intro c
      by_cases hc : (c.email == normEmail d.email) = true <;>
        simp [hc, applyContactData_email]
    refine ⟨?_, ?_, ?_, ?_⟩
    · unfold contactNodup at h ⊢
      rw [List.map_map]
      have : st.contacts.map ((fun c => c.email) ∘ fun c =>
          if c.email == normEmail d.email then contacts.applyContactData c d
          else c) = st.contacts.map (fun c => c.email) :=
        List.map_congr_left (fun a _ => hpres a)
      rw [this]
      exact h
    · have hcnt : (st.contacts.map (fun c =>
          if c.email == normEmail d.email then contacts.applyContactData c d
          else c)).countP (fun c => c.email == normEmail d.email) =
          st.contacts.countP (fun c => c.email == normEmail d.email) := by
        rw [List.countP_map]
        refine List.countP_congr ?_
        intro a _
        simp only [Function.comp]
        rw [hpres a]
      rw [hcnt]
      have hle := countP_key_le_one (fun c : Contact => c.email) h
        (normEmail d.email)
      have hge : 0 < st.contacts.countP
          (fun c => c.email == normEmail d.email) :=
        List.countP_pos_iff.mpr ⟨row, hrow_mem, by simp [hrow_em]⟩
      omega
    · intro c hc hdom
      obtain ⟨a, ha, rfl⟩ := List.mem_map.mp hc
      by_cases hcc : (a.email == normEmail d.email) = true
      · rw [if_pos hcc]
        exact applyContactData_applied _ _
      · rw [if_neg (by simp [hcc])] at hdom ⊢
        simp [hdom] at hcc
    · rw [applyContactData_email, hrow_em]

/-- The unique-email invariant survives any sequence of contact
upserts. -/
theorem contact_upsertMany_nodup (ds : List ContactData) :
    ∀ st : Store, contactNodup st →
      contactNodup (contacts.upsertMany st ds) := by
  induction ds with
  | nil =>
    intro st h
    simpa [contacts.upsertMany] using h
  | cons d ds ih =>
    intro st h
    have h1 := (contact_upsert_step st d h).1
    simpa [contacts.upsertMany] using ih _ h1

/-- C4: for every N greater than or equal to 1 (here N equals the length
of ds plus one) and every run of N organization upserts sharing one
domain (resp. contact upserts sharing one email) on a store satisfying
the unique-identity invariant, exactly one row with that identity
remains; that row carries every non-identity field the last call
supplied, and its identity field is the shared domain (resp. the
case-folding of the shared email, fixed at first insertion). -/
theorem upsert_dedup_last_writer_wins :
    (∀ (st : Store) (ds : List OrgData) (d : OrgData) (dom : String),
      orgNodup st → (∀ x ∈ ds, x.domain = dom) → d.domain = dom →
        (organizations.upsertMany st (ds ++ [d])).orgs.countP
            (fun o => o.domain == dom) = 1 ∧
          ∀ o ∈ (organizations.upsertMany st (ds ++ [d])).orgs,
            o.domain = dom → d.applied o) ∧
    (∀ (st : Store) (ds : List ContactData) (d : ContactData) (em : String),
      contactNodup st → (∀ x ∈ ds, x.email = em) → d.email = em →
        (contacts.upsertMany st (ds ++ [d])).contacts.countP
            (fun c => c.email == normEmail em) = 1 ∧
          ∀ c ∈ (contacts.upsertMany st (ds ++ [d])).contacts,
            c.email = normEmail em → d.applied c) := by
  constructor
  · intro st ds d dom h _ hd
    subst hd
    have hmany : organizations.upsertMany st (ds ++ [d]) =
        (organizations.upsert (organizations.upsertMany st ds) d).2 := by
      simp [organizations.upsertMany]
    rw [hmany]
    have hn := org_upsertMany_nodup ds st h
    obtain ⟨_, h2, h3, _⟩ :=
      org_upsert_step (organizations.upsertMany st ds) d hn
    exact ⟨h2, h3⟩
  · intro st ds d em h _ hd
    subst hd
    have hmany : contacts.upsertMany st (ds ++ [d]) =
        (contacts.upsert (contacts.upsertMany st ds) d).2 := by
      simp [contacts.upsertMany]
    rw [hmany]
    have hn := contact_upsertMany_nodup ds st h
    obtain ⟨_, h2, h3, _⟩ :=
      contact_upsert_step (contacts.upsertMany st ds) d hn
    exact ⟨h2, h3⟩

/-- Witness for C4: two same-domain organization upserts and two
same-email contact upserts on the empty store, with the hypotheses
discharged concretely. -/
theorem upsert_dedup_last_writer_wins_witness :
    ((organizations.upsertMany emptyStore ([oData1] ++ [oData2])).orgs.countP
        (fun o => o.domain == "acme.com") = 1 ∧
      ∀ o ∈ (organizations.upsertMany emptyStore ([oData1] ++ [oData2])).orgs,
        o.domain = "acme.com" → oData2.applied o) ∧
    ((contacts.upsertMany emptyStore ([cData1] ++ [cData2])).contacts.countP
        (fun c => c.email == normEmail "Lead@Acme.com") = 1 ∧
      ∀ c ∈ (contacts.upsertMany emptyStore ([cData1] ++ [cData2])).contacts,
        c.email = normEmail "Lead@Acme.com" → cData2.applied c) :=
  ⟨upsert_dedup_last_writer_wins.1 emptyStore [oData1] oData2 "acme.com"
      (by simp [orgNodup, emptyStore]) (by decide) (by decide),
    upsert_dedup_last_writer_wins.2 emptyStore [cData1] cData2 "Lead@Acme.com"
      (by simp [contactNodup, emptyStore]) (by decide) (by decide)⟩

/-- Counterexample for C3: upserting an organization with an empty
domain (and a contact with an empty email) on the empty store raises no
InvalidIdentity error; it writes a row whose identity is the empty
string. -/
theorem upsert_empty_identity_counterexample :
    (organizations.upsert emptyStore (orgData0 (some "X") "" none)).2.orgs.map
        (fun o => o.domain) = [""] ∧
    (organizations.upsert emptyStore (orgData0 (some "X") "" none)).1.domain
        = "" ∧
    (contacts.upsert emptyStore (contactData0 none "")).2.contacts.map
        (fun c => c.email) = [""] := by
  decide

/-- C3 amended: an upsert whose identity field is empty does not fail
and writes a row: afterwards exactly one organization row has the empty
domain (resp. one contact row the empty email), and the returned row
carries the empty identity.  No InvalidIdentity check exists in the
source. -/
theorem upsert_empty_identity_writes_row :
    (∀ (st : Store) (d : OrgData), orgNodup st → d.domain = "" →
      (organizations.upsert st d).2.orgs.countP
          (fun o => o.domain == "") = 1 ∧
        (organizations.upsert st d).1.domain = "") ∧
    (∀ (st : Store) (d : ContactData), contactNodup st → d.email = "" →
      (contacts.upsert st d).2.contacts.countP
          (fun c => c.email == "") = 1 ∧
        (contacts.upsert st d).1.email = "") := by
  constructor
  · intro st d h hd
    obtain ⟨_, h2, _, h4⟩ := org_upsert_step st d h
    rw [hd] at h2 h4
    exact ⟨h2, h4⟩
  · intro st d h hd
    obtain ⟨_, h2, _, h4⟩ := contact_upsert_step st d h
    rw [hd] at h2 h4
    have hne : normEmail "" = "" := rfl
    rw [hne] at h2 h4
    exact ⟨h2, h4⟩

/-- Witness for the amended C3 at concrete inputs. -/
theorem upsert_empty_identity_writes_row_witness :
    ((organizations.upsert emptyStore (orgData0 none "" none)).2.orgs.countP
        (fun o => o.domain == "") = 1 ∧
      (organizations.upsert emptyStore (orgData0 none "" none)).1.domain
        = "") ∧
    ((contacts.upsert emptyStore
          (contactData0 (some "N") "")).2.contacts.countP
        (fun c => c.email == "") = 1 ∧
      (contacts.upsert emptyStore (contactData0 (some "N") "")).1.email
        = "") :=
  ⟨upsert_empty_identity_writes_row.1 emptyStore (orgData0 none "" none)
      (by simp [orgNodup, emptyStore]) rfl,
    upsert_empty_identity_writes_row.2 emptyStore (contactData0 (some "N") "")
      (by simp [contactNodup, emptyStore]) rfl⟩

/-- Defaulting a present value is the value itself. -/
theorem pickD_some {α : Type} (v old : α) : pickD (some v) old = v := rfl

/-- Stamping a touch twice with the same message id and timestamp is the
identity on the second application. -/
theorem markSentRow_idem (t : EmailTouch) (mid : String) (sa : Instant) :
    sequences.markSentRow (sequences.markSentRow t mid sa) mid sa =
      sequences.markSentRow t mid sa := rfl

/-- Helper: searching the updated touch list for the touch id finds the
stamped image of the original search result. -/
theorem mark_find_aux (l : List EmailTouch) (tid : Nat) (mid : String)
    (sa : Instant) :
    (l.map (fun t =>
        if t.id == tid then sequences.markSentRow t mid sa else t)).find?
        (fun t => t.id == tid) =
      (l.find? (fun t => t.id == tid)).map
        (fun t => sequences.markSentRow t mid sa) := by
  induction l with
  | nil => simp
  | cons a l ih =>
    by_cases ha : (a.id == tid) = true
    · have hb : ((sequences.markSentRow a mid sa).id == tid) = true := ha
      rw [List.map_cons, if_pos ha]
      simp only [List.find?_cons, hb, ha]
      rfl
    · have ha2 : (a.id == tid) = false := by simpa using ha
      rw [List.map_cons, if_neg (by simp [ha2]),
        List.find?_cons_of_neg _ (by simp [ha2]),
        List.find?_cons_of_neg _ (by simp [ha2])]
      exact ih

/-- C5 amended: mark_touch_sent stamps status sent, the message id and
the timestamp on the touch with the given id regardless of its prior
status (so a cancelled touch is moved to sent as well); every other
touch is untouched; the returned row is the stamped image of the looked
up row (none when the id is unknown); and a repeated call with the same
message id and the recorded timestamp returns the identical row and
state rather than erroring. -/
theorem mark_touch_sent_unconditional (st : Store) (tid : Nat)
    (mid : String) (sent_at : Option Instant) (now now2 : Instant) :
    (sequences.mark_touch_sent st tid mid sent_at now).2.email_touches.length
        = st.email_touches.length ∧
    (∀ t ∈ st.email_touches, t.id = tid →
      sequences.markSentRow t mid (pickD sent_at now) ∈
        (sequences.mark_touch_sent st tid mid sent_at now).2.email_touches) ∧
    (∀ t ∈ st.email_touches, t.id ≠ tid →
      t ∈ (sequences.mark_touch_sent st tid mid sent_at now).2.email_touches) ∧
    (sequences.mark_touch_sent st tid mid sent_at now).1 =
      (st.email_touches.find? (fun t => t.id == tid)).map
        (fun t => sequences.markSentRow t mid (pickD sent_at now)) ∧
    sequences.mark_touch_sent
        (sequences.mark_touch_sent st tid mid sent_at now).2 tid mid
        (some (pickD sent_at now)) now2 =
      sequences.mark_touch_sent st tid mid sent_at now := by
  have hcomp : ∀ t : EmailTouch,
      (if (if t.id == tid then sequences.markSentRow t mid (pickD sent_at now)
            else t).id == tid then
        sequences.markSentRow
          (if t.id == tid then sequences.markSentRow t mid (pickD sent_at now)
           else t) mid (pickD sent_at now)
       else
        (if t.id == tid then sequences.markSentRow t mid (pickD sent_at now)
         else t)) =
      (if t.id == tid then sequences.markSentRow t mid (pickD sent_at now)
       else t) := by
    intro t
    by_cases ht : (t.id == tid) = true
    · simp [ht, sequences.markSentRow]
    · simp [ht]
  refine ⟨?_, ?_, ?_, ?_, ?_⟩
  · simp [sequences.mark_touch_sent]
  · intro t ht hid
    simp only [sequences.mark_touch_sent]
    have : sequences.markSentRow t mid (pickD sent_at now) =
        (fun t => if t.id == tid then
          sequences.markSentRow t mid (pickD sent_at now) else t) t := by
      simp [hid]
    rw [this]
    exact List.mem_map_of_mem _ ht
  · intro t ht hid
    simp only [sequences.mark_touch_sent]
    have : t = (fun t => if t.id == tid then
        sequences.markSentRow t mid (pickD sent_at now) else t) t := by
      simp [hid]
    rw [this]
    exact List.mem_map_of_mem _ ht
  · simp only [sequences.mark_touch_sent]
    exact mark_find_aux st.email_touches tid mid (pickD sent_at now)
  · simp only [sequences.mark_touch_sent, pickD_some]
    have hmm : (st.email_touches.map (fun t =>
        if t.id == tid then sequences.markSentRow t mid (pickD sent_at now)
        else t)).map (fun t =>
        if t.id == tid then sequences.markSentRow t mid (pickD sent_at now)
        else t) = st.email_touches.map (fun t =>
        if t.id == tid then sequences.markSentRow t mid (pickD sent_at now)
        else t) := by
      rw [List.map_map]
      exact List.map_congr_left (fun t _ => hcomp t)
    have e1 := mark_find_aux st.email_touches tid mid (pickD sent_at now)
    have e2 := mark_find_aux (st.email_touches.map (fun t =>
      if t.id == tid then sequences.markSentRow t mid (pickD sent_at now)
      else t)) tid mid (pickD sent_at now)
    rw [Prod.mk.injEq]
    constructor
    · rw [e2, e1]
      cases st.email_touches.find? (fun t => t.id == tid) with
      | none => rfl
      | some t => simp [markSentRow_idem]
    · rw [hmm]

/-- Counterexample for C5: a touch already cancelled is moved to sent by
mark_touch_sent, because the UPDATE filters only on the touch id. -/
theorem mark_touch_sent_cancelled_counterexample :
    cancelledTouchStore.email_touches.map (fun t => t.status) =
        [some "cancelled"] ∧
      (sequences.mark_touch_sent cancelledTouchStore 3 "msg-9" (some 77)
          80).2.email_touches.map (fun t => t.status) = [some "sent"] := by
  decide

/-- Witness for the amended C5 on a store with one scheduled touch. -/
theorem mark_touch_sent_unconditional_witness :
    (sequences.mark_touch_sent scheduledTouchStore 3 "m-1" none
        60).2.email_touches.length
        = scheduledTouchStore.email_touches.length ∧
    (∀ t ∈ scheduledTouchStore.email_touches, t.id = 3 →
      sequences.markSentRow t "m-1" (pickD none 60) ∈
        (sequences.mark_touch_sent scheduledTouchStore 3 "m-1" none
          60).2.email_touches) ∧
    (∀ t ∈ scheduledTouchStore.email_touches, t.id ≠ 3 →
      t ∈ (sequences.mark_touch_sent scheduledTouchStore 3 "m-1" none
        60).2.email_touches) ∧
    (sequences.mark_touch_sent scheduledTouchStore 3 "m-1" none 60).1 =
      (scheduledTouchStore.email_touches.find? (fun t => t.id == 3)).map
        (fun t => sequences.markSentRow t "m-1" (pickD none 60)) ∧
    sequences.mark_touch_sent
        (sequences.mark_touch_sent scheduledTouchStore 3 "m-1" none
          60).2 3 "m-1" (some (pickD none 60)) 61 =
      sequences.mark_touch_sent scheduledTouchStore 3 "m-1" none 60 :=
  mark_touch_sent_unconditional scheduledTouchStore 3 "m-1" none 60 61

/-- C6: cancel_remaining_touches moves exactly the still-scheduled
touches of the given sequence to cancelled, leaves every other touch
unchanged (sent, bounced and failed ones included), returns the number
actually cancelled, and an immediately repeated call returns zero. -/
theorem cancel_remaining_touches_selective (st : Store) (seq : Nat) :
    (sequences.cancel_remaining_touches st seq).2.email_touches.length
        = st.email_touches.length ∧
    (∀ t ∈ st.email_touches, t.sequence_id = seq →
      t.status = some "scheduled" →
        { t with status := some "cancelled" } ∈
          (sequences.cancel_remaining_touches st seq).2.email_touches) ∧
    (∀ t ∈ st.email_touches,
      ¬(t.sequence_id = seq ∧ t.status = some "scheduled") →
        t ∈ (sequences.cancel_remaining_touches st seq).2.email_touches) ∧
    (sequences.cancel_remaining_touches st seq).1 =
      (st.email_touches.filter (fun t =>
        t.sequence_id == seq && t.status == some "scheduled")).length ∧
    (sequences.cancel_remaining_touches
        (sequences.cancel_remaining_touches st seq).2 seq).1 = 0 := by
  refine ⟨?_, ?_, ?_, ?_, ?_⟩
  · simp [sequences.cancel_remaining_touches]
  · intro t ht h1 h2
    simp only [sequences.cancel_remaining_touches]
    have hc : sequences.cancelTarget seq t = true := by
      simp [sequences.cancelTarget, h1, h2]
    have : ({ t with status := some "cancelled" } : EmailTouch) =
        (fun t => if sequences.cancelTarget seq t then
          { t with status := some "cancelled" } else t) t := by
      simp [hc]
    rw [this]
    exact List.mem_map_of_mem _ ht
  · intro t ht hn
    simp only [sequences.cancel_remaining_touches]
    have hc : sequences.cancelTarget seq t = false := by
      simp only [sequences.cancelTarget, Bool.and_eq_false_iff]
      by_cases h1 : t.sequence_id = seq
      · right
        have h2 : ¬t.status = some "scheduled" := fun h2 => hn ⟨h1, h2⟩
        simpa using h2
      · left
        simpa using h1
    have : t = (fun t => if sequences.cancelTarget seq t then
        ({ t with status := some "cancelled" } : EmailTouch) else t) t := by
      simp [hc]
    rw [this]
    exact List.mem_map_of_mem _ ht
  · simp only [sequences.cancel_remaining_touches]
    have hpred : sequences.cancelTarget seq = fun t : EmailTouch =>
        t.sequence_id == seq && t.status == some "scheduled" := rfl
    rw [List.countP_eq_length_filter, hpred]
  · simp only [sequences.cancel_remaining_touches]
    rw [List.countP_eq_zero]
    intro x hx
    obtain ⟨t, _, rfl⟩ := List.mem_map.mp hx
    by_cases hc : sequences.cancelTarget seq t = true
    · rw [if_pos hc]
      simp [sequences.cancelTarget]
    · rw [if_neg (by simpa using hc)]
      simpa using hc

/-- Witness for C6: the sequence with touches in states sent, scheduled,
scheduled yields a count of 2, keeps the sent touch untouched, and a
second call returns 0. -/
theorem cancel_remaining_touches_selective_witness :
    (sequences.cancel_remaining_touches cancelDemoStore 4).1 = 2 ∧
    (sequences.cancel_remaining_touches
        (sequences.cancel_remaining_touches cancelDemoStore 4).2 4).1 = 0 ∧
    mkTouch 3 4 1 (some "sent") (some "msg-001") ∈
      (sequences.cancel_remaining_touches cancelDemoStore 4).2.email_touches := by
  have h := cancel_remaining_touches_selective cancelDemoStore 4
  refine ⟨?_, h.2.2.2.2, ?_⟩
  · rw [h.2.2.2.1]
    decide
  · exact h.2.2.1 _ (by decide) (by decide)

/-- The nullable-date comparator is total. -/
theorem odateLeB_total (x y : Option Date) :
    events.odateLeB x y = true ∨ events.odateLeB y x = true := by
  cases x <;> cases y <;> simp [events.odateLeB, dateLe] <;> omega

/-- The nullable-date comparator is transitive. -/
theorem odateLeB_trans {x y z : Option Date}
    (hxy : events.odateLeB x y = true) (hyz : events.odateLeB y z = true) :
    events.odateLeB x z = true := by
  cases x <;> cases y <;> cases z <;>
    simp [events.odateLeB, dateLe] at hxy hyz ⊢ <;> omega

/-- The event comparator is total. -/
theorem eventLeB_total (a b : EventRow) :
    events.eventLeB a b = true ∨ events.eventLeB b a = true :=
  odateLeB_total a.event_date b.event_date

/-- The event comparator is transitive. -/
theorem eventLeB_trans {a b c : EventRow}
    (hab : events.eventLeB a b = true) (hbc : events.eventLeB b c = true) :
    events.eventLeB a c = true :=
  odateLeB_trans hab hbc

/-- Membership in an ordered insert. -/
theorem mem_insertEvent (x e : EventRow) (l : List EventRow) :
    x ∈ events.insertEvent e l ↔ x = e ∨ x ∈ l := by
  induction l with
  | nil => simp [events.insertEvent]
  | cons f fs ih =>
    by_cases hef : events.eventLeB e f = true
    · simp [events.insertEvent, hef]
    · simp only [events.insertEvent, if_neg hef, List.mem_cons, ih]
      tauto

/-- Sorting preserves membership. -/
theorem mem_sortEvents (x : EventRow) (l : List EventRow) :
    x ∈ events.sortEvents l ↔ x ∈ l := by
  induction l with
  | nil => simp [events.sortEvents]
  | cons e es ih =>
    simp [events.sortEvents, mem_insertEvent, ih]

/-- Ordered insertion preserves sortedness. -/
theorem pairwise_insertEvent (e : EventRow) (l : List EventRow)
    (h : l.Pairwise (fun a b => events.eventLeB a b = true)) :
    (events.insertEvent e l).Pairwise
      (fun a b => events.eventLeB a b = true) := by
  induction l with
  | nil => simp [events.insertEvent]
  | cons f fs ih =>
    rw [List.pairwise_cons] at h
    by_cases hef : events.eventLeB e f = true
    · rw [events.insertEvent, if_pos hef, List.pairwise_cons]
      constructor
      · intro x hx
        rcases List.mem_cons.mp hx with rfl | hx2
        · exact hef
        · exact eventLeB_trans hef (h.1 x hx2)
      · rw [List.pairwise_cons]
        exact h
    · rw [events.insertEvent, if_neg hef, List.pairwise_cons]
      constructor
      · intro x hx
        rcases (mem_insertEvent x e fs).mp hx with heq | hx2
        · rw [heq]
          rcases eventLeB_total e f with he | he
          · exact absurd he hef
          · exact he
        · exact h.1 x hx2
      · exact ih h.2

/-- The insertion sort produces a list ordered by event_date. -/
theorem sorted_sortEvents (l : List EventRow) :
    (events.sortEvents l).Pairwise
      (fun a b => events.eventLeB a b = true) := by
  induction l with
  | nil => simp [events.sortEvents]
  | cons e es ih =>
    exact pairwise_insertEvent e _ ih

/-- C7: an event appears in the window query exactly when it is stored
with a non-null date lying between today plus months_min months and
today plus months_max months, both boundaries inclusive, and the result
is ordered by event_date ascending. -/
theorem events_in_window_boundary (st : Store) (today : Date)
    (months_min months_max : Nat) :
    (∀ e : EventRow,
      e ∈ events.get_upcoming_events st today months_min months_max ↔
        e ∈ st.events ∧ ∃ d : Date, e.event_date = some d ∧
          dateLe (addMonths today months_min) d ∧
          dateLe d (addMonths today months_max)) ∧
    (events.get_upcoming_events st today months_min months_max).Pairwise
      (fun a b => events.eventLeB a b = true) := by
  constructor
  · intro e
    simp only [events.get_upcoming_events]
    rw [mem_sortEvents, List.mem_filter]
    constructor
    · rintro ⟨hm, hp⟩
      refine ⟨hm, ?_⟩
      cases he : e.event_date with
      | none => rw [he] at hp; cases hp
      | some d =>
        rw [he] at hp
        simp only [Bool.and_eq_true, decide_eq_true_eq] at hp
        exact ⟨d, rfl, hp.1, hp.2⟩
    · rintro ⟨hm, d, hd, h1, h2⟩
      refine ⟨hm, ?_⟩
      rw [hd]
      simp [h1, h2]
  · exact sorted_sortEvents _

/-- Witness for C7: with today 2026-01-01 the events dated 2026-05-01,
2026-07-01 and 2027-01-01 are returned (in that order), while the one
dated 2026-03-01 and the one with no date are not. -/
theorem events_in_window_boundary_witness :
    mkEvent 4 (some ⟨2026, 5, 1⟩) ∈
        events.get_upcoming_events windowDemoStore ⟨2026, 1, 1⟩ 4 12 ∧
    mkEvent 3 (some ⟨2026, 7, 1⟩) ∈
        events.get_upcoming_events windowDemoStore ⟨2026, 1, 1⟩ 4 12 ∧
    mkEvent 1 (some ⟨2027, 1, 1⟩) ∈
        events.get_upcoming_events windowDemoStore ⟨2026, 1, 1⟩ 4 12 ∧
    mkEvent 2 (some ⟨2026, 3, 1⟩) ∉
        events.get_upcoming_events windowDemoStore ⟨2026, 1, 1⟩ 4 12 ∧
    (events.get_upcoming_events windowDemoStore ⟨2026, 1, 1⟩ 4 12).map
        (fun e => e.id) = [4, 3, 1] := by
  have h := events_in_window_boundary windowDemoStore ⟨2026, 1, 1⟩ 4 12
  exact ⟨(h.1 _).mpr ⟨by decide, ⟨2026, 5, 1⟩, rfl, by decide, by decide⟩,
    by decide, by decide, by decide, by decide⟩

/-- Helper: a second add_suppression call for the same email (whatever
its reason and source, the source being legal) returns exactly the row
and state produced by the first call, and is_suppressed answers true on
that state. -/
theorem add_suppression_second_call (st : Store) (now1 now2 : Instant)
    (email : String) (d1 r1 : Option String) (s1 : String)
    (d2 r2 : Option String) (s2 : String) (row : SuppressionRow)
    (st1 : Store)
    (h1 : pipeline.add_suppression st now1 email d1 r1 s1 =
      Except.ok (row, st1))
    (h2 : pipeline.suppressionSources.contains s2 = true) :
    pipeline.add_suppression st1 now2 email d2 r2 s2 =
      Except.ok (row, st1) ∧
    contacts.is_suppressed st1 email = true := by
  unfold pipeline.add_suppression at h1
  by_cases hs1 : pipeline.suppressionSources.contains s1 = true
  · rw [if_pos hs1] at h1
    cases hf : st.suppression_list.find?
        (fun r => r.email == normEmail email) with
    | some row0 =>
      rw [hf] at h1
      simp only [Except.ok.injEq, Prod.mk.injEq] at h1
      obtain ⟨hrow, hst⟩ := h1
      rw [← hrow, ← hst]
      have hmem := List.mem_of_find?_eq_some hf
      have hem : (row0.email == normEmail email) = true := by
        have := List.find?_some hf
        simpa using this
      constructor
      · unfold pipeline.add_suppression
        rw [if_pos h2, hf]
      · unfold contacts.is_suppressed
        exact List.any_eq_true.mpr ⟨row0, hmem, hem⟩
    | none =>
      rw [hf] at h1
      simp only [Except.ok.injEq, Prod.mk.injEq] at h1
      obtain ⟨hrow, hst⟩ := h1
      rw [← hrow, ← hst]
      have hem : ((pipeline.suppressionRowFrom st.nextId (normEmail email)
          d1 r1 s1 now1).email == normEmail email) = true := by
        simp [pipeline.suppressionRowFrom]
      constructor
      · unfold pipeline.add_suppression
        rw [if_pos h2]
        have hfind : (st.suppression_list ++
            [pipeline.suppressionRowFrom st.nextId (normEmail email) d1 r1
              s1 now1]).find? (fun r => r.email == normEmail email) =
            some (pipeline.suppressionRowFrom st.nextId (normEmail email)
              d1 r1 s1 now1) := by
          rw [find?_append_none _ _ hf]
          simp only [List.find?_cons, hem]
        rw [hfind]
      · unfold contacts.is_suppressed
        refine List.any_eq_true.mpr
          ⟨pipeline.suppressionRowFrom st.nextId (normEmail email) d1 r1
            s1 now1, ?_, hem⟩
        simp
  · rw [if_neg hs1] at h1
    cases h1

/-- Helper: with a legal source, add_suppression never errors. -/
theorem add_suppression_ok_of_valid_source (st : Store) (now : Instant)
    (email : String) (d r : Option String) (s : String)
    (hs : pipeline.suppressionSources.contains s = true) :
    ∃ (row : SuppressionRow) (st1 : Store),
      pipeline.add_suppression st now email d r s =
        Except.ok (row, st1) := by
  unfold pipeline.add_suppression
  rw [if_pos hs]
  cases hf : st.suppression_list.find?
      (fun x => x.email == normEmail email) with
  | some row0 => exact ⟨row0, st, rfl⟩
  | none => exact ⟨_, _, rfl⟩

/-- C8: two add_suppression calls with the same email and legal sources
both succeed and return the same row, the one produced by the first
call; the second call changes nothing (first-writer-wins: its reason
and source are not stored), and is_suppressed is true after either
call. -/
theorem add_suppression_idempotent (st : Store) (now1 now2 : Instant)
    (email : String) (d1 r1 : Option String) (s1 : String)
    (d2 r2 : Option String) (s2 : String)
    (hs1 : pipeline.suppressionSources.contains s1 = true)
    (hs2 : pipeline.suppressionSources.contains s2 = true) :
    ∃ (row : SuppressionRow) (st1 : Store),
      pipeline.add_suppression st now1 email d1 r1 s1 =
        Except.ok (row, st1) ∧
      pipeline.add_suppression st1 now2 email d2 r2 s2 =
        Except.ok (row, st1) ∧
      contacts.is_suppressed st1 email = true := by
  obtain ⟨row, st1, h1⟩ :=
    add_suppression_ok_of_valid_source st now1 email d1 r1 s1 hs1
  obtain ⟨h2, h3⟩ := add_suppression_second_call st now1 now2 email d1 r1
    s1 d2 r2 s2 row st1 h1 hs2
  exact ⟨row, st1, h1, h2, h3⟩

/-- Witness for C8 on the empty store: a manual suppression followed by
a second call with a different reason and source. -/
theorem add_suppression_idempotent_witness :
    ∃ (row : SuppressionRow) (st1 : Store),
      pipeline.add_suppression emptyStore 3 "User@X.com" none
          (some "Test suppression") "manual" = Except.ok (row, st1) ∧
      pipeline.add_suppression st1 9 "User@X.com" (some "x.com")
          (some "dup") "unsubscribe_reply" = Except.ok (row, st1) ∧
      contacts.is_suppressed st1 "User@X.com" = true :=
  add_suppression_idempotent emptyStore 3 9 "User@X.com" none
    (some "Test suppression") "manual" (some "x.com") (some "dup")
    "unsubscribe_reply" (by decide) (by decide)

/-- C9: add_suppression with a source outside the
unsubscribe_reply/manual/bounce enum is rejected with the
ck_suppression_source check violation, and the enclosing transaction
leaves the store unchanged: no row is written. -/
theorem add_suppression_invalid_source_rejected (st : Store)
    (now : Instant) (email : String) (domain reason : Option String)
    (source : String)
    (h : pipeline.suppressionSources.contains source = false) :
    pipeline.add_suppression st now email domain reason source =
      Except.error (DBError.checkViolation "ck_suppression_source") ∧
    withTransaction (fun s => Except.map Prod.snd
      (pipeline.add_suppression s now email domain reason source)) st
      = st := by
  have he : pipeline.add_suppression st now email domain reason source =
      Except.error (DBError.checkViolation "ck_suppression_source") := by
    unfold pipeline.add_suppression
    rw [if_neg (by rw [h]; simp)]
  refine ⟨he, ?_⟩
  simp [withTransaction, he, Except.map]

/-- Witness for C9 with the illegal source value spam. -/
theorem add_suppression_invalid_source_rejected_witness :
    pipeline.add_suppression emptyStore 7 "a@b.com" none none "spam" =
      Except.error (DBError.checkViolation "ck_suppression_source") ∧
    withTransaction (fun s => Except.map Prod.snd
      (pipeline.add_suppression s 7 "a@b.com" none none "spam")) emptyStore
      = emptyStore :=
  add_suppression_invalid_source_rejected emptyStore 7 "a@b.com" none none
    "spam" (by decide)

/-- Counterexample for C1: on a store with no permission grant at all,
record_call with call_status completed (not SKIPPED) raises no
gate-violation error and persists the record. -/
theorem record_call_gate_counterexample :
    hasGrantBefore emptyStore 10 = false ∧
    gateDemo.1.call_status = some "completed" ∧
    gateDemo.1.call_status ≠ some "SKIPPED" ∧
    gateDemo.2.call_records = [gateDemo.1] := by
  decide

/-- C1 amended: record_call enforces no permission gate at the
persistence boundary: even when call_status differs from SKIPPED and no
persisted record shows a permission grant predating the attempt, the
operation succeeds and appends exactly the one record, with the supplied
call_status; a call recorded after a grant succeeds identically. -/
theorem record_call_always_appends (st : Store) (now : Instant)
    (org_id contact_id : Option Nat) (cpg : Bool)
    (ecid eaid cs tr : Option String) (suc : Option Bool)
    (slot nts : Option String)
    (_hgate : hasGrantBefore st now = false)
    (_hs : cs ≠ some "SKIPPED") :
    (pipeline.record_call st now org_id contact_id cpg ecid eaid cs tr suc
        slot nts).2.call_records =
      st.call_records ++ [(pipeline.record_call st now org_id contact_id
        cpg ecid eaid cs tr suc slot nts).1] ∧
    (pipeline.record_call st now org_id contact_id cpg ecid eaid cs tr suc
        slot nts).1.call_status = cs :=
  ⟨rfl, rfl⟩

/-- Witness for the amended C1 at the gate-violating input. -/
theorem record_call_always_appends_witness :
    gateDemo.2.call_records =
      emptyStore.call_records ++ [gateDemo.1] ∧
    gateDemo.1.call_status = some "completed" :=
  record_call_always_appends emptyStore 10 (some 2) (some 1) false none
    none (some "completed") none none none none (by decide) (by decide)

/-- C10: every record newly persisted by record_call satisfies: the
grant timestamp is non-null exactly when call_permission_granted is
true, and when true it equals the record's creation instant. -/
theorem record_call_grant_timestamp (st : Store) (now : Instant)
    (org_id contact_id : Option Nat) (cpg : Bool)
    (ecid eaid cs tr : Option String) (suc : Option Bool)
    (slot nts : Option String) :
    ∀ r ∈ (pipeline.record_call st now org_id contact_id cpg ecid eaid cs
        tr suc slot nts).2.call_records, r ∉ st.call_records →
      ((r.call_permission_granted_at ≠ none ↔
          r.call_permission_granted = true) ∧
        (r.call_permission_granted = true →
          r.call_permission_granted_at = some r.created_at) ∧
        r.created_at = now) := by
  intro r hr hnew
  simp only [pipeline.record_call] at hr
  rcases List.mem_append.mp hr with h | h
  · exact absurd h hnew
  · have hrr : r = (pipeline.record_call st now org_id contact_id cpg ecid
        eaid cs tr suc slot nts).1 := by
      simpa using h
    rw [hrr]
    cases cpg <;> simp [pipeline.record_call]

/-- Witness for C10 on a call recorded with permission granted. -/
theorem record_call_grant_timestamp_witness :
    (grantDemo.1.call_permission_granted_at ≠ none ↔
        grantDemo.1.call_permission_granted = true) ∧
      (grantDemo.1.call_permission_granted = true →
        grantDemo.1.call_permission_granted_at =
          some grantDemo.1.created_at) ∧
      grantDemo.1.created_at = 5 :=
  record_call_grant_timestamp emptyStore 5 none none true none none
    (some "completed") none none none none grantDemo.1 (by decide)
    (by decide)

/-- C2 evaluated at the failing input: an UNSUBSCRIBE reply from a known
contact commits, in one transaction, the reply row and a suppression
entry for the sender, but the contact's scheduled touch is NOT
cancelled: it stays scheduled, and a direct cancel_remaining_touches
call on its sequence would still cancel it afterwards. -/
theorem reply_handler_unsubscribe_no_cancellation :
    contacts.is_suppressed demoReplyResult "lead@acme.com" = true ∧
    demoReplyResult.inbound_replies.length = 1 ∧
    demoReplyResult.email_touches.map (fun t => t.status) =
      [some "scheduled"] ∧
    (sequences.cancel_remaining_touches demoReplyResult 4).1 = 1 := by
  decide

end Backflip
